import Mathlib

/-!
dubbo-go-pixiu-filter: the API registry and the configuration decoding hooks.

A shallow embedding of `pkg/api/api.go`, `pkg/api/base.go` and the two custom
`UnmarshalYAML` hooks of `pkg/api/config/api_config.go`.

The registry `CacheApi` is a `sync.Map` holding `interface{}` values under
`interface{}` keys; the registry methods load a value, assert it to `*API`
and read or write the `Status` field through that pointer. The embedding keeps
this shape: a map from dynamic values to dynamic values together with a heap
of `API` objects, and every method returns either a panic or its result paired
with the state it leaves behind.
-/

namespace Pixiu

/-! ## pkg/api/base.go -/

/-- ApiType is `type ApiType int32`. -/
abbrev ApiType := Int

/-- Status is the components status, `type Status int32`. -/
abbrev Status := Int

/-- Down, `Down Status = 0`. -/
def Down : Status := 0

/-- Up, `Up Status = 1`. -/
def Up : Status := 1

/-- Unknown, `Unknown Status = 2`. -/
def Unknown : Status := 2

/-- RequestMethod is `type RequestMethod int32`. -/
abbrev RequestMethod := Int

/-- METHOD_UNSPECIFIED is the first constant of the iota block (DEFAULT). -/
def METHOD_UNSPECIFIED : Int := 0

def GET : Int := 1

def HEAD : Int := 2

def POST : Int := 3

def PUT : Int := 4

def DELETE : Int := 5

def CONNECT : Int := 6

def OPTIONS : Int := 7

def TRACE : Int := 8

/-- RequestMethodValue is the `map[string]int32` literal of base.go, as its
list of key/value pairs. -/
def RequestMethodValue : List (String × Int) :=
  [("METHOD_UNSPECIFIED", 0),
   ("GET", 1),
   ("HEAD", 2),
   ("POST", 3),
   ("PUT", 4),
   ("DELETE", 5),
   ("CONNECT", 6),
   ("OPTIONS", 7),
   ("TRACE", 8)]

/-- Go map indexing `m[k]` on a `map[string]int32`: the stored value, or the
zero value `0` when the key is missing. -/
def mapIndex (m : List (String × Int)) (k : String) : Int :=
  match m.lookup k with
  | some v => v
  | none => 0

/-! ## Dynamic values, the heap and the registry state -/

/-- Address of an `API` object on the heap. -/
abbrev Addr := Nat

/-- A Go `interface{}` value, as far as the registry can tell values apart:
a string, a `*API` (the nil pointer is `apiPtr none`), or a value of any other
dynamic type (the nil interface included), identified by a tag. -/
inductive Any where
  | str (s : String)
  | apiPtr (p : Option Addr)
  | other (tag : Nat)
  deriving DecidableEq, Repr

/-- API is api gateway concept (`type API struct`). The embedded
`RequestMethod` is the field of that name. -/
structure API where
  Name : String
  ITypeStr : String
  IType : ApiType
  OTypeStr : String
  OType : ApiType
  Status : Status
  Metadata : Any
  Method : String
  RequestMethod : RequestMethod
  deriving DecidableEq, Repr

/-- NewApi returns `&API{}`: every field at its zero value. -/
def zeroAPI : API :=
  { Name := "", ITypeStr := "", IType := 0, OTypeStr := "", OType := 0,
    Status := 0, Metadata := Any.other 0, Method := "", RequestMethod := 0 }

/-- The process state the registry methods run in: the package variable
`CacheApi` (a `sync.Map`, that is a map from `interface{}` keys to
`interface{}` values) and the heap of `API` objects that `*API` values point
into. -/
structure World where
  CacheApi : Any → Option Any
  heap : Addr → API

/-- The state at program start: `CacheApi = sync.Map{}` is empty. -/
def emptyWorld : World :=
  { CacheApi := fun _ => none, heap := fun _ => zeroAPI }

instance : Inhabited World := ⟨emptyWorld⟩

/-- The two run-time panics the registry methods can raise. -/
inductive Panic where
  | typeAssertion
  | nilDereference
  deriving DecidableEq, Repr

/-- Load is `CacheApi.Load(name)` with a string argument: the value stored under that
string key, `none` standing for `ok == false`. -/
def Load (w : World) (name : String) : Option Any :=
  w.CacheApi (Any.str name)

/-- The unchecked type assertion `v.(*API)`: panics unless the dynamic type
of `v` is `*API`. -/
def assertAPI : Any → Except Panic (Option Addr)
  | Any.apiPtr p => Except.ok p
  | _ => Except.error Panic.typeAssertion

/-- Selecting a field through a `*API`: panics on the nil pointer. -/
def deref : Option Addr → Except Panic Addr
  | some p => Except.ok p
  | none => Except.error Panic.nilDereference

/-! ## pkg/api/api.go -/

/-- FindApi find a api, if not exist, return false. The receiver (here `_a`) is
not used by the body, as in the three methods below it. -/
def FindApi (w : World) (_a : Option Addr) (name : String) :
    Except Panic ((Option Addr × Bool) × World) :=
  match Load w name with
  | some v =>
    match assertAPI v with
    | Except.ok p => Except.ok ((p, true), w)
    | Except.error e => Except.error e
  | none => Except.ok ((none, false), w)

/-- MatchMethod: `i := RequestMethodValue[method]`, then compare with the
receiver's `RequestMethod`. -/
def MatchMethod (w : World) (a : Option Addr) (method : String) :
    Except Panic (Bool × World) :=
  let i := mapIndex RequestMethodValue method
  match deref a with
  | Except.ok p =>
    if (w.heap p).RequestMethod = i then Except.ok (true, w) else Except.ok (false, w)
  | Except.error e => Except.error e

/-- IsOk api status equals Up. -/
def IsOk (w : World) (_a : Option Addr) (name : String) : Except Panic (Bool × World) :=
  match Load w name with
  | some v =>
    match assertAPI v with
    | Except.ok q =>
      match deref q with
      | Except.ok p => Except.ok (decide ((w.heap p).Status = Up), w)
      | Except.error e => Except.error e
    | Except.error e => Except.error e
  | none => Except.ok (false, w)

/-- The assignment `v.(*API).Status = s` once the pointer is known. -/
def setStatus (w : World) (p : Addr) (s : Status) : World :=
  { w with heap := Function.update w.heap p { w.heap p with Status := s } }

/-- Offline api offline. -/
def Offline (w : World) (_a : Option Addr) (name : String) : Except Panic (Unit × World) :=
  match Load w name with
  | some v =>
    match assertAPI v with
    | Except.ok q =>
      match deref q with
      | Except.ok p => Except.ok ((), setStatus w p Down)
      | Except.error e => Except.error e
    | Except.error e => Except.error e
  | none => Except.ok ((), w)

/-- Online api online. -/
def Online (w : World) (_a : Option Addr) (name : String) : Except Panic (Unit × World) :=
  match Load w name with
  | some v =>
    match assertAPI v with
    | Except.ok q =>
      match deref q with
      | Except.ok p => Except.ok ((), setStatus w p Up)
      | Except.error e => Except.error e
    | Except.error e => Except.error e
  | none => Except.ok ((), w)

/-! ## Sequences of status calls -/

/-- One `Online` or `Offline` call: which of the two, the receiver it is
invoked on, and the name passed. -/
structure Call where
  online : Bool
  recv : Option Addr
  name : String
  deriving DecidableEq, Repr

/-- Executes one call on the state. -/
def runCall (w : World) (c : Call) : Except Panic World :=
  match (if c.online then Online w c.recv c.name else Offline w c.recv c.name) with
  | Except.ok r => Except.ok r.2
  | Except.error e => Except.error e

/-- Executes the calls one after another, stopping at the first panic. -/
def runCalls (w : World) : List Call → Except Panic World
  | [] => Except.ok w
  | c :: cs =>
    match runCall w c with
    | Except.ok w1 => runCalls w1 cs
    | Except.error e => Except.error e

/-- The value the specification gives `IsOk(n)` after a sequence of calls:
true exactly when the most recent call that targeted the name `n` was
`Online`, and, when no call targeted `n`, exactly when the initial status was
`Up`. -/
def specIsOkByName (initial : Status) (n : String) (calls : List Call) : Bool :=
  match (calls.filter (fun c => decide (c.name = n))).getLast? with
  | some c => c.online
  | none => decide (initial = Up)

/-- Whether the call's name is bound, in the registry of `w`, to the `API`
object at address `p`. -/
def hitsInstance (w : World) (p : Addr) (c : Call) : Bool :=
  decide (Load w c.name = some (Any.apiPtr (some p)))

/-- The value of `IsOk` after a sequence of calls, by `API` object: true
exactly when the most recent call whose name is bound to the object at `p`
was `Online`, and, when there is no such call, exactly when the object's
initial status was `Up`. -/
def isOkByInstance (w : World) (p : Addr) (calls : List Call) : Bool :=
  match (calls.filter (hitsInstance w p)).getLast? with
  | some c => c.online
  | none => decide ((w.heap p).Status = Up)

/-! ## Concrete registry states -/

/-- A registry whose only entry, under `"svc"`, is the object at address 0,
which is `Up`; every object of the heap is otherwise at its zero value. -/
def oneUpWorld : World :=
  { CacheApi := fun k => if k = Any.str "svc" then some (Any.apiPtr (some 0)) else none
    heap := fun _ => { zeroAPI with Status := Up } }

/-- A registry whose only entry, under `"orders"`, is the object at address
3, configured with `RequestMethod = GET` and status `Down`. -/
def getWorld : World :=
  { CacheApi := fun k => if k = Any.str "orders" then some (Any.apiPtr (some 3)) else none
    heap := fun _ => { zeroAPI with Name := "orders", Method := "GET", RequestMethod := GET } }

/-- A registry in which the names `"a"` and `"b"` are bound to the same
`*API` (address 0), whose status is `Up`. -/
def sharedWorld : World :=
  { CacheApi := fun k =>
      if k = Any.str "a" then some (Any.apiPtr (some 0))
      else if k = Any.str "b" then some (Any.apiPtr (some 0))
      else none
    heap := fun _ => { zeroAPI with Status := Up } }

/-- A registry with the entry `"svc"` (the object at address 0, which is
`Up`) in which the key `"a"` holds a value that is not a `*API`. -/
def mixedWorld : World :=
  { CacheApi := fun k =>
      if k = Any.str "svc" then some (Any.apiPtr (some 0))
      else if k = Any.str "a" then some (Any.other 0)
      else none
    heap := fun _ => { zeroAPI with Status := Up } }

/-- A `CacheApi` holding, under the key `"a"`, a value that is not a `*API`
(as after `CacheApi.Store("a", 42)`). -/
def foreignWorld : World :=
  { CacheApi := fun k => if k = Any.str "a" then some (Any.other 0) else none
    heap := fun _ => zeroAPI }

/-- A `CacheApi` holding, under the key `"a"`, the nil `*API`
(as after `CacheApi.Store("a", (*API)(nil))`). -/
def nilWorld : World :=
  { CacheApi := fun k => if k = Any.str "a" then some (Any.apiPtr none) else none
    heap := fun _ => zeroAPI }

/-! ## pkg/api/config/api_config.go -/

/-- A Go `error` value, by its message. -/
abbrev GoError := String

/-- A `time.Duration`: a signed count of nanoseconds (int64). -/
abbrev Duration := Int

/-- HTTPVerb defines the restful api http verb (`type HTTPVerb string`). -/
abbrev HTTPVerb := String

/-- RequestType describes the type of the request (`type RequestType string`). -/
abbrev RequestType := String

structure PluginsInUse where
  GroupNames : List String
  PluginNames : List String
  deriving DecidableEq, Repr

/-- PluginsConfig defines the pre & post plugins. -/
structure PluginsConfig where
  PrePlugins : PluginsInUse
  PostPlugins : PluginsInUse
  deriving DecidableEq, Repr

/-- Params defines the simple parameter definition. -/
structure Params where
  Name : String
  Type_ : String
  Required : Bool
  deriving DecidableEq, Repr

/-- BodyDefinition connects the request body to the definitions. -/
structure BodyDefinition where
  DefinitionName : String
  deriving DecidableEq, Repr

/-- InboundRequest defines the details of the inbound. -/
structure InboundRequest where
  RequestType : RequestType
  Headers : List Params
  QueryStrings : List Params
  RequestBody : List BodyDefinition
  deriving DecidableEq, Repr

/-- MappingParam defines the mapping rules of headers and queryStrings. -/
structure MappingParam where
  Name : String
  MapTo : String
  MapType : String
  deriving DecidableEq, Repr

/-- DubboBackendConfig defines the basic dubbo backend config. -/
structure DubboBackendConfig where
  ClusterName : String
  ApplicationName : String
  Protocol : String
  Group : String
  Version : String
  Interface : String
  Method : String
  Retries : String
  deriving DecidableEq, Repr

/-- HTTPBackendConfig defines the basic http backend config. -/
structure HTTPBackendConfig where
  URL : String
  Host : String
  Path : String
  Schema : String
  deriving DecidableEq, Repr

/-- IntegrationRequest defines the backend request format and target. -/
structure IntegrationRequest where
  RequestType : RequestType
  DubboBackendConfig : DubboBackendConfig
  HTTPBackendConfig : HTTPBackendConfig
  MappingParams : List MappingParam
  deriving DecidableEq, Repr

/-- Method defines the method of the api. -/
structure Method where
  ID : Int
  ResourcePath : String
  Enable : Bool
  Timeout : Duration
  Mock : Bool
  Filters : List String
  HTTPVerb : HTTPVerb
  InboundRequest : InboundRequest
  IntegrationRequest : IntegrationRequest
  deriving DecidableEq, Repr

/-- Resource defines the API path. `Headers` is the `map[string]string`, as
its list of key/value pairs. -/
structure Resource where
  ID : Int
  Type_ : String
  Path : String
  Timeout : Duration
  Description : String
  Filters : List String
  Plugins : PluginsConfig
  Methods : List Method
  Resources : List Resource
  Headers : List (String × String)

/-- DefaultTimeoutStr is `const DefaultTimeoutStr = "1s"`. -/
def DefaultTimeoutStr : String := "1s"

/-- The anonymous `struct { Timeout string }` both hooks decode the timeout
text into. -/
structure TimeoutHolder where
  Timeout : String
  deriving DecidableEq, Repr

/-- The `unmarshal func(interface{}) error` argument of `UnmarshalYAML`, by
the two targets the hooks pass to it: the value it leaves in the target, and
the error it returns, if any. It is supplied by the YAML library. -/
structure Unmarshal (α : Type) where
  intoAlias : α → α × Option GoError
  intoTimeout : TimeoutHolder → TimeoutHolder × Option GoError

/-- UnmarshalYAML Resource custom UnmarshalYAML. The first component is the
receiver `*r` as the call leaves it, the second the returned error (`none`
for `nil`). `parseDuration` is `time.ParseDuration`. -/
def Resource.UnmarshalYAML (parseDuration : String → Except GoError Duration)
    (r : Resource) (unmarshal : Unmarshal Resource) : Resource × Option GoError :=
  let s : TimeoutHolder := { Timeout := "" }
  let (r1, err1) := unmarshal.intoAlias r
  match err1 with
  | some e => (r1, some e)
  | none =>
    let (s1, err2) := unmarshal.intoTimeout s
    match err2 with
    | some e => (r1, some e)
    | none =>
      let s2 : TimeoutHolder :=
        if s1.Timeout = "" then { s1 with Timeout := DefaultTimeoutStr } else s1
      match parseDuration s2.Timeout with
      | Except.error e => (r1, some e)
      | Except.ok d => ({ r1 with Timeout := d }, none)

/-- UnmarshalYAML method custom UnmarshalYAML. Same conventions as for
`Resource.UnmarshalYAML`. -/
def Method.UnmarshalYAML (parseDuration : String → Except GoError Duration)
    (m : Method) (unmarshal : Unmarshal Method) : Method × Option GoError :=
  let (m1, err1) := unmarshal.intoAlias m
  match err1 with
  | some e => (m1, some e)
  | none =>
    let s : TimeoutHolder := { Timeout := "" }
    let (s1, err2) := unmarshal.intoTimeout s
    match err2 with
    | some e => (m1, some e)
    | none =>
      let s2 : TimeoutHolder :=
        if s1.Timeout = "" then { s1 with Timeout := DefaultTimeoutStr } else s1
      match parseDuration s2.Timeout with
      | Except.error e => (m1, some e)
      | Except.ok d => ({ m1 with Timeout := d }, none)

/-! ## time.ParseDuration

`time.ParseDuration` belongs to the Go standard library, not to this
repository; the hooks above take it as a parameter. What follows transcribes
its algorithm, to have the standard parser at hand for concrete documents.
The standard library converts the fractional part of a number through
`float64`; that conversion is the parameter `frac` here. -/

/-- The `unitMap` of package `time`: nanoseconds per unit. -/
def unitMap : List (String × Nat) :=
  [("ns", 1),
   ("us", 1000),
   ("µs", 1000),
   ("μs", 1000),
   ("ms", 1000000),
   ("s", 1000000000),
   ("m", 60000000000),
   ("h", 3600000000000)]

/-- The `leadingInt` helper of package `time`: consumes the leading `[0-9]*`, accumulating
into `x`; `none` on overflow past `1<<63`. -/
def leadingInt : List Char → Nat → Option (Nat × List Char)
  | [], x => some (x, [])
  | c :: cs, x =>
    if c.isDigit then
      if x > 2 ^ 63 / 10 then none
      else
        let y := x * 10 + (c.toNat - 48)
        if y > 2 ^ 63 then none else leadingInt cs y
    else some (x, c :: cs)

/-- The `leadingFraction` helper of package `time`: consumes the leading `[0-9]*`, giving the
digits read as an integer and the power of ten to divide it by; digits past
the capacity of the accumulator are consumed and dropped. -/
def leadingFraction : List Char → Nat → Nat → Bool → Nat × Nat × List Char
  | [], x, scale, _ => (x, scale, [])
  | c :: cs, x, scale, overflow =>
    if c.isDigit then
      if overflow then leadingFraction cs x scale true
      else if x > (2 ^ 63 - 1) / 10 then leadingFraction cs x scale true
      else
        let y := x * 10 + (c.toNat - 48)
        if y > 2 ^ 63 then leadingFraction cs x scale true
        else leadingFraction cs y (scale * 10) false
    else (x, scale, c :: cs)

/-- Whether a character ends a unit name: `c == '.' || '0' <= c && c <= '9'`. -/
def startsNumber (c : Char) : Bool :=
  c == '.' || c.isDigit

/-- The main loop of `ParseDuration`, `for s != ""`: each round reads one
`number unit` group and adds it to `d` (a uint64). Every round consumes at
least one character, so `fuel` above the length of `s` is never exhausted.
The sum `d += v` is taken modulo `2 ^ 64`, as uint64 addition is. -/
def parseGroups (frac : Nat → Nat → Nat → Nat) (orig : String) :
    Nat → List Char → Nat → Except GoError Nat
  | 0, _, _ => Except.error ("time: invalid duration " ++ orig)
  | fuel + 1, s, d =>
    match s with
    | [] => Except.ok d
    | c :: _ =>
      if !(startsNumber c) then Except.error ("time: invalid duration " ++ orig)
      else
        match leadingInt s 0 with
        | none => Except.error ("time: invalid duration " ++ orig)
        | some (v, s1) =>
          let pre := s.length != s1.length
          let (f, scale, s2, post) :=
            match s1 with
            | '.' :: t =>
              let (f, scale, rest) := leadingFraction t 0 1 false
              (f, scale, rest, t.length != rest.length)
            | _ => (0, 1, s1, false)
          if !pre && !post then Except.error ("time: invalid duration " ++ orig)
          else
            let u := s2.takeWhile (fun c => !(startsNumber c))
            let s3 := s2.dropWhile (fun c => !(startsNumber c))
            if u.isEmpty then Except.error ("time: missing unit in duration " ++ orig)
            else
              match unitMap.lookup (String.mk u) with
              | none =>
                Except.error ("time: unknown unit " ++ String.mk u ++ " in duration " ++ orig)
              | some unit =>
                if v > 2 ^ 63 / unit then Except.error ("time: invalid duration " ++ orig)
                else
                  let scaled : Option Nat :=
                    if f > 0 then
                      if v * unit + frac f unit scale > 2 ^ 63 then none
                      else some (v * unit + frac f unit scale)
                    else some (v * unit)
                  match scaled with
                  | none => Except.error ("time: invalid duration " ++ orig)
                  | some v1 =>
                    let d1 := (d + v1) % 2 ^ 64
                    if d1 > 2 ^ 63 then Except.error ("time: invalid duration " ++ orig)
                    else parseGroups frac orig fuel s3 d1

/-- ParseDuration parses a duration string: a possibly signed sequence of
decimal numbers, each with optional fraction and a unit suffix. -/
def ParseDuration (frac : Nat → Nat → Nat → Nat) (orig : String) : Except GoError Duration :=
  let (neg, s) : Bool × List Char :=
    match orig.toList with
    | '-' :: t => (true, t)
    | '+' :: t => (false, t)
    | l => (false, l)
  if s = ['0'] then Except.ok 0
  else if s = [] then Except.error ("time: invalid duration " ++ orig)
  else
    match parseGroups frac orig (s.length + 1) s 0 with
    | Except.error e => Except.error e
    | Except.ok d =>
      if neg then Except.ok (-(d : Int))
      else if d > 2 ^ 63 - 1 then Except.error ("time: invalid duration " ++ orig)
      else Except.ok (d : Int)

/-- The fractional part taken exactly: `f * unit / scale`, rounded down. -/
def exactFrac (f unit scale : Nat) : Nat :=
  f * unit / scale

/-- The timeout string as the specification describes it: the document's
timeout text (what decoding leaves in the holder, which starts empty),
replaced by `"1s"` when it is empty or absent. -/
def specTimeoutText {α : Type} (u : Unmarshal α) : String :=
  if (u.intoTimeout { Timeout := "" }).1.Timeout = "" then "1s"
  else (u.intoTimeout { Timeout := "" }).1.Timeout

/-! ## Concrete documents -/

/-- A `Resource` with every field at its zero value. -/
def zeroResource : Resource :=
  { ID := 0, Type_ := "", Path := "", Timeout := 0, Description := "", Filters := [],
    Plugins := { PrePlugins := { GroupNames := [], PluginNames := [] },
                 PostPlugins := { GroupNames := [], PluginNames := [] } },
    Methods := [], Resources := [], Headers := [] }

/-- A `Method` with every field at its zero value. -/
def zeroMethod : Method :=
  { ID := 0, ResourcePath := "", Enable := false, Timeout := 0, Mock := false, Filters := [],
    HTTPVerb := "",
    InboundRequest := { RequestType := "", Headers := [], QueryStrings := [], RequestBody := [] },
    IntegrationRequest :=
      { RequestType := "",
        DubboBackendConfig :=
          { ClusterName := "", ApplicationName := "", Protocol := "", Group := "",
            Version := "", Interface := "", Method := "", Retries := "" },
        HTTPBackendConfig := { URL := "", Host := "", Path := "", Schema := "" },
        MappingParams := [] } }

/-- The decoder of a resource document `type: Restful`, `path: /users`,
`description: users` with the given text under `timeout` (no `timeout` key
when the text is empty): decoding into the resource writes the three fields,
decoding into the timeout holder writes the text; both succeed. -/
def resourceDoc (timeout : String) : Unmarshal Resource :=
  { intoAlias := fun r =>
      ({ r with Type_ := "Restful", Path := "/users", Description := "users" }, none)
    intoTimeout := fun s =>
      (if timeout = "" then s else { s with Timeout := timeout }, none) }

/-- The decoder of a method document `resourcePath: /users`, `enable: true`,
`httpVerb: GET` with the given text under `timeout` (no `timeout` key when
the text is empty). -/
def methodDoc (timeout : String) : Unmarshal Method :=
  { intoAlias := fun m =>
      ({ m with ResourcePath := "/users", Enable := true, HTTPVerb := "GET" }, none)
    intoTimeout := fun s =>
      (if timeout = "" then s else { s with Timeout := timeout }, none) }

/-! ## The registry: lookups -/

/-- C1. `IsOk(name)` returns true if and only if the registry holds an entry
for `name` (a `*API` pointing to an object) whose `Status` is `Up`; it returns
false for an absent name and for an entry whose `Status` is `Down` or
`Unknown`; the receiver plays no part. -/
theorem IsOk_true_iff_entry_up (w : World) (a : Option Addr) (name : String) :
    ((∃ w1, IsOk w a name = Except.ok (true, w1)) ↔
      ∃ p, Load w name = some (Any.apiPtr (some p)) ∧ (w.heap p).Status = Up) ∧
    (Load w name = none → IsOk w a name = Except.ok (false, w)) ∧
    (∀ p, Load w name = some (Any.apiPtr (some p)) →
      (w.heap p).Status = Down ∨ (w.heap p).Status = Unknown →
      IsOk w a name = Except.ok (false, w)) ∧
    (∀ b, IsOk w b name = IsOk w a name) := by
  refine ⟨?_, ?_, ?_, fun _ => rfl⟩
  · unfold IsOk
    cases hL : Load w name with
    | none => simp
    | some v =>
      cases v with
      | str s => simp [assertAPI]
      | other t => simp [assertAPI]
      | apiPtr q =>
        cases q with
        | none => simp [assertAPI, deref]
        | some p => simp [assertAPI, deref]
  · intro h
    simp [IsOk, h]
  · intro p h hs
    have hne : (w.heap p).Status ≠ Up := by
      rcases hs with hs | hs <;> rw [hs] <;> decide
    simp [IsOk, h, assertAPI, deref, hne]

/-- C1 at a registry with the entry `"svc"`, which is `Up`, and at one with
the entry `"orders"`, which is `Down`: `IsOk` is true for `"svc"`, false for
`"orders"` and false for the absent name `"gone"`. -/
theorem IsOk_true_iff_entry_up_witness :
    (∃ w1, IsOk oneUpWorld none "svc" = Except.ok (true, w1)) ∧
    IsOk oneUpWorld none "gone" = Except.ok (false, oneUpWorld) ∧
    IsOk getWorld (some 3) "orders" = Except.ok (false, getWorld) :=
  ⟨(IsOk_true_iff_entry_up oneUpWorld none "svc").1.2 ⟨0, rfl, rfl⟩,
   (IsOk_true_iff_entry_up oneUpWorld none "gone").2.1 rfl,
   (IsOk_true_iff_entry_up getWorld (some 3) "orders").2.2.1 3 rfl (Or.inl rfl)⟩

/-- C7. `FindApi(name)` returns the `*API` stored under `name` together with
true when the registry holds one, and `(nil, false)` when it holds nothing
under `name`; whenever it returns, the state it leaves is the state it found;
the receiver plays no part. -/
theorem FindApi_returns_stored_entry (w : World) (a : Option Addr) (name : String) :
    (∀ p, Load w name = some (Any.apiPtr p) →
      FindApi w a name = Except.ok ((p, true), w)) ∧
    (Load w name = none → FindApi w a name = Except.ok ((none, false), w)) ∧
    (∀ r w1, FindApi w a name = Except.ok (r, w1) → w1 = w) ∧
    (∀ b, FindApi w b name = FindApi w a name) := by
  refine ⟨?_, ?_, ?_, fun _ => rfl⟩
  · intro p h
    simp [FindApi, h, assertAPI]
  · intro h
    simp [FindApi, h]
  · intro r w1
    unfold FindApi
    cases hL : Load w name with
    | none =>
      simp only [Except.ok.injEq, Prod.mk.injEq]
      exact fun h => h.2.symm
    | some v =>
      cases v with
      | str s => simp [assertAPI]
      | other t => simp [assertAPI]
      | apiPtr q =>
        simp only [assertAPI, Except.ok.injEq, Prod.mk.injEq]
        exact fun h => h.2.symm

/-- C7 at a registry with the entry `"svc"`: the stored pointer is returned
with true, and `(nil, false)` for the absent name `"gone"`. -/
theorem FindApi_returns_stored_entry_witness :
    FindApi oneUpWorld none "svc" = Except.ok ((some 0, true), oneUpWorld) ∧
    FindApi oneUpWorld (some 7) "gone" = Except.ok ((none, false), oneUpWorld) :=
  ⟨(FindApi_returns_stored_entry oneUpWorld none "svc").1 (some 0) rfl,
   (FindApi_returns_stored_entry oneUpWorld (some 7) "gone").2.1 rfl⟩

/-! ## The registry: status changes -/

/-- C2. When `name` is bound to an `API` object, `Online(name)` (resp.
`Offline(name)`) returns, leaves the map `CacheApi` as it was, turns that
object into itself with `Status` set to `Up` (resp. `Down`) and leaves every
other object as it was; when nothing is stored under `name`, both return and
leave the whole state as it was. -/
theorem Online_Offline_change_only_status (w : World) (a : Option Addr) (name : String) :
    (∀ p, Load w name = some (Any.apiPtr (some p)) →
      ∃ w1, Online w a name = Except.ok ((), w1) ∧ w1.CacheApi = w.CacheApi ∧
        w1.heap p = { w.heap p with Status := Up } ∧
        ∀ q, q ≠ p → w1.heap q = w.heap q) ∧
    (∀ p, Load w name = some (Any.apiPtr (some p)) →
      ∃ w1, Offline w a name = Except.ok ((), w1) ∧ w1.CacheApi = w.CacheApi ∧
        w1.heap p = { w.heap p with Status := Down } ∧
        ∀ q, q ≠ p → w1.heap q = w.heap q) ∧
    (Load w name = none →
      Online w a name = Except.ok ((), w) ∧ Offline w a name = Except.ok ((), w)) := by
  refine ⟨?_, ?_, ?_⟩
  · intro p h
    refine ⟨setStatus w p Up, by simp [Online, h, assertAPI, deref], rfl, ?_, ?_⟩
    · simp [setStatus]
    · intro q hq
      simp [setStatus, Function.update_noteq hq]
  · intro p h
    refine ⟨setStatus w p Down, by simp [Offline, h, assertAPI, deref], rfl, ?_, ?_⟩
    · simp [setStatus]
    · intro q hq
      simp [setStatus, Function.update_noteq hq]
  · intro h
    simp [Online, Offline, h]

/-- C2 at a registry with the entry `"orders"`, bound to the object at
address 3: `Online("orders")` sets that object's status to `Up` and keeps its
other fields, the object at address 0 and the registry map; `Offline("gone")`
changes nothing. -/
theorem Online_Offline_change_only_status_witness :
    (∃ w1, Online getWorld none "orders" = Except.ok ((), w1) ∧
      w1.CacheApi = getWorld.CacheApi ∧
      w1.heap 3 = { getWorld.heap 3 with Status := Up } ∧
      (w1.heap 3).RequestMethod = GET ∧
      w1.heap 0 = getWorld.heap 0) ∧
    Offline getWorld none "gone" = Except.ok ((), getWorld) := by
  obtain ⟨w1, h1, h2, h3, h4⟩ :=
    (Online_Offline_change_only_status getWorld none "orders").1 3 rfl
  refine ⟨⟨w1, h1, h2, h3, ?_, h4 0 (by decide)⟩,
    ((Online_Offline_change_only_status getWorld none "gone").2.2 rfl).2⟩
  rw [h3]
  rfl

/-! ## Method matching -/

/-- Indexing `RequestMethodValue` with one of its nine keys gives the value
listed for it. -/
theorem mapIndex_of_mem (k : String) (v : Int) (h : (k, v) ∈ RequestMethodValue) :
    mapIndex RequestMethodValue k = v := by
  simp only [RequestMethodValue, List.mem_cons, Prod.mk.injEq, List.mem_singleton,
    List.not_mem_nil, or_false] at h
  rcases h with h | h | h | h | h | h | h | h | h <;> obtain ⟨rfl, rfl⟩ := h <;> rfl

/-- Indexing `RequestMethodValue` with a string that is not one of its keys
gives the zero value. -/
theorem mapIndex_of_not_mem (m : String)
    (h : m ∉ RequestMethodValue.map Prod.fst) : mapIndex RequestMethodValue m = 0 := by
  have hl : RequestMethodValue.lookup m = none := by
    rw [List.lookup_eq_none_iff]
    intro p hp
    rw [bne_iff_ne]
    intro hm
    exact h (hm ▸ List.mem_map_of_mem Prod.fst hp)
  simp [mapIndex, hl]

/-- On a non-nil receiver `MatchMethod` returns, with the state untouched, the
outcome of comparing the receiver's `RequestMethod` with
`RequestMethodValue[method]`. -/
theorem MatchMethod_eq (w : World) (p : Addr) (s : String) :
    MatchMethod w (some p) s =
      Except.ok (decide ((w.heap p).RequestMethod = mapIndex RequestMethodValue s), w) := by
  unfold MatchMethod
  by_cases hc : (w.heap p).RequestMethod = mapIndex RequestMethodValue s <;>
    simp [deref, hc]

/-- C6. For an `API` object `p` and a method string `m`, `MatchMethod(m)`
returns true if and only if the value `RequestMethodValue[m]` equals the
object's `RequestMethod` (for each of the nine listed names that value is the
one listed); the result is the same in any state and for any object with the
same `RequestMethod`, and the call leaves the state, the object and the
registry included, as it was. -/
theorem MatchMethod_compares_enumeration (w : World) (p : Addr) (m : String) :
    MatchMethod w (some p) m =
      Except.ok (decide ((w.heap p).RequestMethod = mapIndex RequestMethodValue m), w) ∧
    (∀ k v, (k, v) ∈ RequestMethodValue →
      MatchMethod w (some p) k = Except.ok (decide ((w.heap p).RequestMethod = v), w)) ∧
    (∀ (w2 : World) (p2 : Addr), (w2.heap p2).RequestMethod = (w.heap p).RequestMethod →
      ∃ b, MatchMethod w (some p) m = Except.ok (b, w) ∧
        MatchMethod w2 (some p2) m = Except.ok (b, w2)) := by
  refine ⟨MatchMethod_eq w p m, ?_, ?_⟩
  · intro k v hkv
    rw [MatchMethod_eq, mapIndex_of_mem k v hkv]
  · intro w2 p2 h
    exact ⟨_, MatchMethod_eq w p m, by rw [MatchMethod_eq, h]⟩

/-- C6 at an object configured with `RequestMethod = GET`: it matches `"GET"`
and does not match `"POST"`, and the state is returned as it was. -/
theorem MatchMethod_compares_enumeration_witness :
    MatchMethod getWorld (some 3) "GET" = Except.ok (true, getWorld) ∧
    MatchMethod getWorld (some 3) "POST" = Except.ok (false, getWorld) :=
  ⟨(MatchMethod_compares_enumeration getWorld 3 "GET").2.1 "GET" 1 (by decide),
   (MatchMethod_compares_enumeration getWorld 3 "POST").2.1 "POST" 3 (by decide)⟩

/-- C10. For a method string that is not one of the nine names of
`RequestMethodValue`, `MatchMethod` returns true if and only if the object's
`RequestMethod` is `METHOD_UNSPECIFIED`, which is also what it returns for
the name `"METHOD_UNSPECIFIED"`; so an object with the default
`RequestMethod` matches every such string. -/
theorem MatchMethod_unrecognised_name (w : World) (p : Addr) (m : String)
    (h : m ∉ RequestMethodValue.map Prod.fst) :
    MatchMethod w (some p) m =
      Except.ok (decide ((w.heap p).RequestMethod = METHOD_UNSPECIFIED), w) ∧
    MatchMethod w (some p) m = MatchMethod w (some p) "METHOD_UNSPECIFIED" ∧
    ((w.heap p).RequestMethod = METHOD_UNSPECIFIED →
      MatchMethod w (some p) m = Except.ok (true, w)) := by
  have h1 := MatchMethod_eq w p m
  have h2 := MatchMethod_eq w p "METHOD_UNSPECIFIED"
  have e1 : mapIndex RequestMethodValue m = 0 := mapIndex_of_not_mem m h
  have e2 : mapIndex RequestMethodValue "METHOD_UNSPECIFIED" = 0 := rfl
  rw [e1] at h1
  rw [e2] at h2
  refine ⟨h1, h1.trans h2.symm, ?_⟩
  intro h0
  rw [h1]
  simp [h0, METHOD_UNSPECIFIED]

/-- C10 at the method strings `"PATCH"`, `"get"` and `""`, none of which is
a key of `RequestMethodValue`: an object at its zero value matches each. -/
theorem MatchMethod_unrecognised_name_witness :
    ("PATCH" ∉ RequestMethodValue.map Prod.fst ∧
      MatchMethod oneUpWorld (some 0) "PATCH" = Except.ok (true, oneUpWorld)) ∧
    ("get" ∉ RequestMethodValue.map Prod.fst ∧
      MatchMethod oneUpWorld (some 0) "get" = Except.ok (true, oneUpWorld)) ∧
    ("" ∉ RequestMethodValue.map Prod.fst ∧
      MatchMethod oneUpWorld (some 0) "" = Except.ok (true, oneUpWorld)) :=
  ⟨⟨by decide, (MatchMethod_unrecognised_name oneUpWorld 0 "PATCH" (by decide)).2.2 rfl⟩,
   ⟨by decide, (MatchMethod_unrecognised_name oneUpWorld 0 "get" (by decide)).2.2 rfl⟩,
   ⟨by decide, (MatchMethod_unrecognised_name oneUpWorld 0 "" (by decide)).2.2 rfl⟩⟩

/-! ## Hard failures -/

/-- C8, refuted. With a value that is not a `*API` stored under `"a"`, each
of `FindApi`, `IsOk`, `Online` and `Offline` panics at the type assertion
`v.(*API)`; with the nil `*API` stored under `"a"`, `FindApi` returns it as
found and the other three panic at the field selection. -/
theorem registry_panics_on_foreign_value :
    (FindApi foreignWorld none "a" = Except.error Panic.typeAssertion ∧
      IsOk foreignWorld none "a" = Except.error Panic.typeAssertion ∧
      Online foreignWorld none "a" = Except.error Panic.typeAssertion ∧
      Offline foreignWorld none "a" = Except.error Panic.typeAssertion) ∧
    (FindApi nilWorld none "a" = Except.ok ((none, true), nilWorld) ∧
      IsOk nilWorld none "a" = Except.error Panic.nilDereference ∧
      Online nilWorld none "a" = Except.error Panic.nilDereference ∧
      Offline nilWorld none "a" = Except.error Panic.nilDereference) :=
  ⟨⟨rfl, rfl, rfl, rfl⟩, ⟨rfl, rfl, rfl, rfl⟩⟩

/-- C8, amended. `FindApi(name)` completes without a panic exactly when
`CacheApi` holds nothing or a `*API` under `name`; `IsOk(name)`,
`Online(name)` and `Offline(name)` complete without a panic exactly when it
holds nothing or a non-nil `*API` under `name`. -/
theorem registry_completes_iff_entry_typed (w : World) (a : Option Addr) (name : String) :
    ((∃ r, FindApi w a name = Except.ok r) ↔
      (Load w name = none ∨ ∃ p, Load w name = some (Any.apiPtr p))) ∧
    ((∃ r, IsOk w a name = Except.ok r) ↔
      (Load w name = none ∨ ∃ p, Load w name = some (Any.apiPtr (some p)))) ∧
    ((∃ r, Online w a name = Except.ok r) ↔
      (Load w name = none ∨ ∃ p, Load w name = some (Any.apiPtr (some p)))) ∧
    ((∃ r, Offline w a name = Except.ok r) ↔
      (Load w name = none ∨ ∃ p, Load w name = some (Any.apiPtr (some p)))) := by
  unfold FindApi IsOk Online Offline
  cases hL : Load w name with
  | none => simp
  | some v =>
    cases v with
    | str s => simp [assertAPI]
    | other t => simp [assertAPI]
    | apiPtr q =>
      cases q with
      | none => simp [assertAPI, deref]
      | some p => simp [assertAPI, deref]

/-- C8, amended, at a registry with one entry: the four methods complete on
the registered name and on a name that is absent. -/
theorem registry_completes_iff_entry_typed_witness :
    ((∃ r, FindApi oneUpWorld none "svc" = Except.ok r) ∧
      (∃ r, IsOk oneUpWorld none "svc" = Except.ok r) ∧
      (∃ r, Online oneUpWorld none "svc" = Except.ok r) ∧
      (∃ r, Offline oneUpWorld none "svc" = Except.ok r)) ∧
    ((∃ r, FindApi oneUpWorld none "gone" = Except.ok r) ∧
      (∃ r, IsOk oneUpWorld none "gone" = Except.ok r) ∧
      (∃ r, Online oneUpWorld none "gone" = Except.ok r) ∧
      (∃ r, Offline oneUpWorld none "gone" = Except.ok r)) :=
  have hs := registry_completes_iff_entry_typed oneUpWorld none "svc"
  have hg := registry_completes_iff_entry_typed oneUpWorld none "gone"
  have es : Load oneUpWorld "svc" = none ∨
      ∃ p, Load oneUpWorld "svc" = some (Any.apiPtr (some p)) := Or.inr ⟨0, rfl⟩
  have eg : Load oneUpWorld "gone" = none ∨
      ∃ p, Load oneUpWorld "gone" = some (Any.apiPtr (some p)) := Or.inl rfl
  ⟨⟨hs.1.2 (Or.inr ⟨some 0, rfl⟩), hs.2.1.2 es, hs.2.2.1.2 es, hs.2.2.2.2 es⟩,
   ⟨hg.1.2 (Or.inl rfl), hg.2.1.2 eg, hg.2.2.1.2 eg, hg.2.2.2.2 eg⟩⟩

/-! ## Sequences of `Online` / `Offline` calls -/

/-- The status a call writes. -/
theorem runCall_of_bound (w : World) (c : Call) (q : Addr)
    (h : Load w c.name = some (Any.apiPtr (some q))) :
    runCall w c = Except.ok (setStatus w q (if c.online then Up else Down)) := by
  unfold runCall
  cases hc : c.online <;> simp [Online, Offline, h, assertAPI, deref]

/-- A call on a name the registry does not hold changes nothing. -/
theorem runCall_of_absent (w : World) (c : Call) (h : Load w c.name = none) :
    runCall w c = Except.ok w := by
  unfold runCall
  cases hc : c.online <;> simp [Online, Offline, h]

/-- One step of the sequence: the verdict for `c :: cs` from the state before
`c` is the verdict for `cs` from the state after `c`. -/
theorem isOkByInstance_cons (w w1 : World) (p : Addr) (c : Call) (cs : List Call)
    (hL : ∀ name, Load w1 name = Load w name)
    (hhit : hitsInstance w p c = true →
      (w1.heap p).Status = (if c.online then Up else Down))
    (hmiss : hitsInstance w p c = false → (w1.heap p).Status = (w.heap p).Status) :
    isOkByInstance w p (c :: cs) = isOkByInstance w1 p cs := by
  have hf : hitsInstance w1 p = hitsInstance w p := by
    funext c
    simp [hitsInstance, hL]
  unfold isOkByInstance
  rw [hf]
  cases hc : hitsInstance w p c with
  | false =>
    rw [List.filter_cons_of_neg (by simp [hc]), hmiss hc]
  | true =>
    rw [List.filter_cons_of_pos hc]
    cases hl : List.filter (hitsInstance w p) cs with
    | nil =>
      rw [hhit hc]
      cases ho : c.online <;> simp [Up, Down, ho]
    | cons d ds =>
      rw [List.getLast?_cons_cons]
      obtain ⟨e, he⟩ : ∃ e, (d :: ds).getLast? = some e :=
        ⟨_, List.getLast?_eq_getLast _ (List.cons_ne_nil d ds)⟩
      rw [he]

/-- Running a sequence of calls, each on a name that is absent or bound to an
object: the run completes, keeps every binding, and the object at `p` ends
with `Status = Up` exactly when `isOkByInstance` says so. -/
theorem runCalls_status (calls : List Call) :
    ∀ (w : World) (p : Addr),
      (∀ c ∈ calls, Load w c.name = none ∨ ∃ q, Load w c.name = some (Any.apiPtr (some q))) →
      ∃ w1, runCalls w calls = Except.ok w1 ∧ (∀ name, Load w1 name = Load w name) ∧
        decide ((w1.heap p).Status = Up) = isOkByInstance w p calls := by
  induction calls with
  | nil =>
    intro w p _
    exact ⟨w, rfl, fun _ => rfl, by simp [isOkByInstance]⟩
  | cons c cs ih =>
    intro w p hc
    have hcs : ∀ (w0 : World), (∀ name, Load w0 name = Load w name) →
        ∀ d ∈ cs, Load w0 d.name = none ∨
          ∃ q, Load w0 d.name = some (Any.apiPtr (some q)) := by
      intro w0 h0 d hd
      rw [h0]
      exact hc d (List.mem_cons_of_mem c hd)
    rcases hc c (List.mem_cons_self c cs) with hnone | ⟨q, hq⟩
    · obtain ⟨w1, hrun, hL, hst⟩ := ih w p (hcs w (fun _ => rfl))
      refine ⟨w1, ?_, hL, ?_⟩
      · simp [runCalls, runCall_of_absent w c hnone, hrun]
      · rw [hst]
        symm
        apply isOkByInstance_cons w w p c cs (fun _ => rfl)
        · intro hh
          simp [hitsInstance, hnone] at hh
        · intro _
          rfl
    · let w0 := setStatus w q (if c.online then Up else Down)
      obtain ⟨w1, hrun, hL, hst⟩ := ih w0 p (hcs w0 (fun _ => rfl))
      refine ⟨w1, ?_, fun name => (hL name).trans rfl, ?_⟩
      · simp [runCalls, runCall_of_bound w c q hq, hrun, w0]
      · rw [hst]
        symm
        apply isOkByInstance_cons w w0 p c cs (fun _ => rfl)
        · intro hh
          have hqp : q = p := by
            simp [hitsInstance, hq] at hh
            exact hh
          subst hqp
          simp [w0, setStatus]
        · intro hh
          have hqp : p ≠ q := by
            intro e
            subst e
            simp [hitsInstance, hq] at hh
          simp [w0, setStatus, Function.update_noteq hqp]

/-- C3, refuted. In a registry where `"a"` and `"b"` are bound to the same
`*API`, whose status is `Up`, the single call `Offline("b")` makes `IsOk("a")`
return false, although no call targeted `"a"` and its initial status was `Up`,
for which the claim gives true. And in a registry where `"svc"` is registered
and `"a"` holds a value that is not a `*API`, the call `Online("a")` panics, so
that the sequence does not run to its end. -/
theorem IsOk_after_call_on_shared_instance :
    (Load sharedWorld "a" = some (Any.apiPtr (some 0)) ∧
      (sharedWorld.heap 0).Status = Up ∧
      specIsOkByName (sharedWorld.heap 0).Status "a" [⟨false, none, "b"⟩] = true ∧
      ∃ w1, runCalls sharedWorld [⟨false, none, "b"⟩] = Except.ok w1 ∧
        IsOk w1 none "a" = Except.ok (false, w1)) ∧
    (Load mixedWorld "svc" = some (Any.apiPtr (some 0)) ∧
      runCalls mixedWorld [⟨true, none, "a"⟩] = Except.error Panic.typeAssertion) :=
  ⟨⟨rfl, rfl, by decide, setStatus sharedWorld 0 Down, rfl, rfl⟩, ⟨rfl, rfl⟩⟩

/-- C3, amended. Let `n` be bound to the `API` object at `p`, and let every
call of the sequence be on a name that is absent or bound to an `API` object.
Then the sequence runs to completion; afterwards `FindApi(n)` still finds the
same pointer, and `IsOk(n)` is true exactly when the most recent call whose
name is bound to the object at `p` (under `n` or under any other name) was
`Online`, and, when there was no such call, exactly when the initial status
was `Up`. When no name other than `n` among the calls is bound to that object,
this is the most recent call that targeted `n`. -/
theorem IsOk_reflects_last_call_on_instance (w : World) (a : Option Addr) (n : String)
    (p : Addr) (calls : List Call)
    (hn : Load w n = some (Any.apiPtr (some p)))
    (hc : ∀ c ∈ calls,
      Load w c.name = none ∨ ∃ q, Load w c.name = some (Any.apiPtr (some q))) :
    ∃ w1, runCalls w calls = Except.ok w1 ∧
      FindApi w1 a n = Except.ok ((some p, true), w1) ∧
      IsOk w1 a n = Except.ok (isOkByInstance w p calls, w1) ∧
      ((∀ c ∈ calls, c.name ≠ n → Load w c.name ≠ some (Any.apiPtr (some p))) →
        isOkByInstance w p calls = specIsOkByName (w.heap p).Status n calls) := by
  obtain ⟨w1, hrun, hL, hst⟩ := runCalls_status calls w p hc
  have hn1 : Load w1 n = some (Any.apiPtr (some p)) := (hL n).trans hn
  refine ⟨w1, hrun, ?_, ?_, ?_⟩
  · simp [FindApi, hn1, assertAPI]
  · simp [IsOk, hn1, assertAPI, deref, hst]
  · intro hother
    have hf : calls.filter (hitsInstance w p) =
        calls.filter (fun c => decide (c.name = n)) := by
      apply List.filter_congr
      intro c hcm
      by_cases hcn : c.name = n
      · simp [hitsInstance, hcn, hn]
      · simp [hitsInstance, hcn, hother c hcm hcn]
    simp [isOkByInstance, specIsOkByName, hf]

/-- C3, amended, at a registry with the entry `"svc"`, initially `Up`, and
the calls `Offline("svc")`, `Online("gone")`, `Online("svc")`, `Offline("gone")`:
the run completes, the entry is still found and `IsOk` is true, the last call
on `"svc"` being `Online`. -/
theorem IsOk_reflects_last_call_on_instance_witness :
    Load oneUpWorld "svc" = some (Any.apiPtr (some 0)) ∧
    ∃ w1, runCalls oneUpWorld [⟨false, none, "svc"⟩, ⟨true, some 0, "gone"⟩,
        ⟨true, none, "svc"⟩, ⟨false, none, "gone"⟩] = Except.ok w1 ∧
      FindApi w1 none "svc" = Except.ok ((some 0, true), w1) ∧
      IsOk w1 none "svc" = Except.ok (true, w1) := by
  obtain ⟨w1, h1, h2, h3, _⟩ := IsOk_reflects_last_call_on_instance oneUpWorld none "svc" 0
    [⟨false, none, "svc"⟩, ⟨true, some 0, "gone"⟩, ⟨true, none, "svc"⟩, ⟨false, none, "gone"⟩]
    rfl (by
      intro c hc
      simp only [List.mem_cons, List.mem_singleton, List.not_mem_nil, or_false] at hc
      rcases hc with rfl | rfl | rfl | rfl
      · exact Or.inr ⟨0, rfl⟩
      · exact Or.inl rfl
      · exact Or.inr ⟨0, rfl⟩
      · exact Or.inl rfl)
  exact ⟨rfl, w1, h1, h2, h3⟩

/-! ## Timeout decoding -/

/-- When both structural decodes succeed, `Resource.UnmarshalYAML` is decided
by `time.ParseDuration` on the decoded timeout text, or on `DefaultTimeoutStr`
when that text is empty. -/
theorem Resource_UnmarshalYAML_eq (pd : String → Except GoError Duration) (r : Resource)
    (u : Unmarshal Resource)
    (h1 : (u.intoAlias r).2 = none) (h2 : (u.intoTimeout { Timeout := "" }).2 = none) :
    Resource.UnmarshalYAML pd r u =
      match pd (if (u.intoTimeout { Timeout := "" }).1.Timeout = "" then DefaultTimeoutStr
          else (u.intoTimeout { Timeout := "" }).1.Timeout) with
      | Except.error e => ((u.intoAlias r).1, some e)
      | Except.ok d => ({ (u.intoAlias r).1 with Timeout := d }, none) := by
  obtain ⟨fa, ft⟩ := u
  unfold Resource.UnmarshalYAML
  simp only at h1 h2 ⊢
  rcases hA : fa r with ⟨r1, e1⟩
  rcases hT : ft { Timeout := "" } with ⟨s1, e2⟩
  rw [hA] at h1
  rw [hT] at h2
  simp only at h1 h2
  subst h1 h2
  by_cases hs : s1.Timeout = "" <;> simp [hs]

/-- The same for `Method.UnmarshalYAML`. -/
theorem Method_UnmarshalYAML_eq (pd : String → Except GoError Duration) (m : Method)
    (u : Unmarshal Method)
    (h1 : (u.intoAlias m).2 = none) (h2 : (u.intoTimeout { Timeout := "" }).2 = none) :
    Method.UnmarshalYAML pd m u =
      match pd (if (u.intoTimeout { Timeout := "" }).1.Timeout = "" then DefaultTimeoutStr
          else (u.intoTimeout { Timeout := "" }).1.Timeout) with
      | Except.error e => ((u.intoAlias m).1, some e)
      | Except.ok d => ({ (u.intoAlias m).1 with Timeout := d }, none) := by
  obtain ⟨fa, ft⟩ := u
  unfold Method.UnmarshalYAML
  simp only at h1 h2 ⊢
  rcases hA : fa m with ⟨r1, e1⟩
  rcases hT : ft { Timeout := "" } with ⟨s1, e2⟩
  rw [hA] at h1
  rw [hT] at h2
  simp only at h1 h2
  subst h1 h2
  by_cases hs : s1.Timeout = "" <;> simp [hs]

/-- Whenever `Resource.UnmarshalYAML` returns an error, the receiver is what
the structural decode `unmarshal(alias)` left in it. -/
theorem Resource_UnmarshalYAML_target_on_error (pd : String → Except GoError Duration)
    (r : Resource) (u : Unmarshal Resource)
    (h : (Resource.UnmarshalYAML pd r u).2 ≠ none) :
    (Resource.UnmarshalYAML pd r u).1 = (u.intoAlias r).1 := by
  obtain ⟨fa, ft⟩ := u
  unfold Resource.UnmarshalYAML at h ⊢
  simp only at h ⊢
  generalize fa r = x at h ⊢
  generalize ft { Timeout := "" } = y at h ⊢
  obtain ⟨r1, e1⟩ := x
  obtain ⟨s1, e2⟩ := y
  cases e1 with
  | some e => rfl
  | none =>
    cases e2 with
    | some e => rfl
    | none =>
      simp only at h ⊢
      cases hp : pd (if s1.Timeout = "" then
          { s1 with Timeout := DefaultTimeoutStr } else s1).Timeout with
      | error e => rfl
      | ok d =>
        rw [hp] at h
        exact absurd rfl h

/-- Whenever `Method.UnmarshalYAML` returns an error, the receiver is what
the structural decode `unmarshal(alias)` left in it. -/
theorem Method_UnmarshalYAML_target_on_error (pd : String → Except GoError Duration)
    (m : Method) (u : Unmarshal Method)
    (h : (Method.UnmarshalYAML pd m u).2 ≠ none) :
    (Method.UnmarshalYAML pd m u).1 = (u.intoAlias m).1 := by
  obtain ⟨fa, ft⟩ := u
  unfold Method.UnmarshalYAML at h ⊢
  simp only at h ⊢
  generalize fa m = x at h ⊢
  generalize ft { Timeout := "" } = y at h ⊢
  obtain ⟨r1, e1⟩ := x
  obtain ⟨s1, e2⟩ := y
  cases e1 with
  | some e => rfl
  | none =>
    cases e2 with
    | some e => rfl
    | none =>
      simp only at h ⊢
      cases hp : pd (if s1.Timeout = "" then
          { s1 with Timeout := DefaultTimeoutStr } else s1).Timeout with
      | error e => rfl
      | ok d =>
        rw [hp] at h
        exact absurd rfl h

/-- An unparsable timeout text makes `Resource.UnmarshalYAML` return an error,
whatever the two decodes return. -/
theorem Resource_UnmarshalYAML_error_of_unparsable (pd : String → Except GoError Duration)
    (r : Resource) (u : Unmarshal Resource) (e : GoError)
    (h : pd (specTimeoutText u) = Except.error e) :
    (Resource.UnmarshalYAML pd r u).2 ≠ none := by
  obtain ⟨fa, ft⟩ := u
  unfold specTimeoutText at h
  unfold Resource.UnmarshalYAML
  simp only at h ⊢
  generalize fa r = x at h ⊢
  generalize ft { Timeout := "" } = y at h ⊢
  obtain ⟨r1, e1⟩ := x
  obtain ⟨s1, e2⟩ := y
  cases e1 with
  | some e => simp
  | none =>
    cases e2 with
    | some e => simp
    | none =>
      by_cases hs : s1.Timeout = "" <;> simp [hs, DefaultTimeoutStr] at h ⊢ <;> simp [h]

/-- An unparsable timeout text makes `Method.UnmarshalYAML` return an error,
whatever the two decodes return. -/
theorem Method_UnmarshalYAML_error_of_unparsable (pd : String → Except GoError Duration)
    (m : Method) (u : Unmarshal Method) (e : GoError)
    (h : pd (specTimeoutText u) = Except.error e) :
    (Method.UnmarshalYAML pd m u).2 ≠ none := by
  obtain ⟨fa, ft⟩ := u
  unfold specTimeoutText at h
  unfold Method.UnmarshalYAML
  simp only at h ⊢
  generalize fa m = x at h ⊢
  generalize ft { Timeout := "" } = y at h ⊢
  obtain ⟨r1, e1⟩ := x
  obtain ⟨s1, e2⟩ := y
  cases e1 with
  | some e => simp
  | none =>
    cases e2 with
    | some e => simp
    | none =>
      by_cases hs : s1.Timeout = "" <;> simp [hs, DefaultTimeoutStr] at h ⊢ <;> simp [h]

/-- The text the hooks pass to `time.ParseDuration` is the specification's
timeout string: `DefaultTimeoutStr` is `"1s"`. -/
theorem specTimeoutText_eq {α : Type} (u : Unmarshal α) :
    (if (u.intoTimeout { Timeout := "" }).1.Timeout = "" then DefaultTimeoutStr
      else (u.intoTimeout { Timeout := "" }).1.Timeout) = specTimeoutText u := rfl

/-- The standard parser on the default text and on `"500ms"`, whatever the
conversion of fractions: exactly one second and exactly 500 milliseconds. -/
theorem ParseDuration_default_and_500ms (frac : Nat → Nat → Nat → Nat) :
    ParseDuration frac "1s" = Except.ok 1000000000 ∧
    ParseDuration frac "500ms" = Except.ok 500000000 :=
  ⟨rfl, rfl⟩

/-- C4. For `Resource.UnmarshalYAML` and `Method.UnmarshalYAML`, every duration
parser standing for `time.ParseDuration` and every input whose two structural
decodes succeed: with `s` the document's timeout text, replaced by `"1s"` when
empty or absent, the call returns no error if and only if `s` parses, and then
the receiver is the decoded value with `Timeout` set to exactly the parsed
duration. In particular, with the standard parser an empty timeout gives
exactly 1 000 000 000 ns and the timeout `"500ms"` gives exactly
500 000 000 ns. -/
theorem UnmarshalYAML_timeout_defaulting :
    (∀ (pd : String → Except GoError Duration) (r : Resource) (u : Unmarshal Resource),
      (u.intoAlias r).2 = none → (u.intoTimeout { Timeout := "" }).2 = none →
      (((Resource.UnmarshalYAML pd r u).2 = none ↔ ∃ d, pd (specTimeoutText u) = Except.ok d) ∧
       (∀ d, pd (specTimeoutText u) = Except.ok d →
         Resource.UnmarshalYAML pd r u = ({ (u.intoAlias r).1 with Timeout := d }, none)))) ∧
    (∀ (pd : String → Except GoError Duration) (m : Method) (u : Unmarshal Method),
      (u.intoAlias m).2 = none → (u.intoTimeout { Timeout := "" }).2 = none →
      (((Method.UnmarshalYAML pd m u).2 = none ↔ ∃ d, pd (specTimeoutText u) = Except.ok d) ∧
       (∀ d, pd (specTimeoutText u) = Except.ok d →
         Method.UnmarshalYAML pd m u = ({ (u.intoAlias m).1 with Timeout := d }, none)))) ∧
    (∀ (frac : Nat → Nat → Nat → Nat) (r : Resource) (u : Unmarshal Resource),
      (u.intoAlias r).2 = none → (u.intoTimeout { Timeout := "" }).2 = none →
      ((u.intoTimeout { Timeout := "" }).1.Timeout = "" →
        Resource.UnmarshalYAML (ParseDuration frac) r u =
          ({ (u.intoAlias r).1 with Timeout := 1000000000 }, none)) ∧
      ((u.intoTimeout { Timeout := "" }).1.Timeout = "500ms" →
        Resource.UnmarshalYAML (ParseDuration frac) r u =
          ({ (u.intoAlias r).1 with Timeout := 500000000 }, none))) ∧
    (∀ (frac : Nat → Nat → Nat → Nat) (m : Method) (u : Unmarshal Method),
      (u.intoAlias m).2 = none → (u.intoTimeout { Timeout := "" }).2 = none →
      ((u.intoTimeout { Timeout := "" }).1.Timeout = "" →
        Method.UnmarshalYAML (ParseDuration frac) m u =
          ({ (u.intoAlias m).1 with Timeout := 1000000000 }, none)) ∧
      ((u.intoTimeout { Timeout := "" }).1.Timeout = "500ms" →
        Method.UnmarshalYAML (ParseDuration frac) m u =
          ({ (u.intoAlias m).1 with Timeout := 500000000 }, none))) := by
  have hR : ∀ (pd : String → Except GoError Duration) (r : Resource) (u : Unmarshal Resource),
      (u.intoAlias r).2 = none → (u.intoTimeout { Timeout := "" }).2 = none →
      ∀ d, pd (specTimeoutText u) = Except.ok d →
        Resource.UnmarshalYAML pd r u = ({ (u.intoAlias r).1 with Timeout := d }, none) := by
    intro pd r u h1 h2 d hd
    have key := Resource_UnmarshalYAML_eq pd r u h1 h2
    rw [specTimeoutText_eq, hd] at key
    exact key
  have hM : ∀ (pd : String → Except GoError Duration) (m : Method) (u : Unmarshal Method),
      (u.intoAlias m).2 = none → (u.intoTimeout { Timeout := "" }).2 = none →
      ∀ d, pd (specTimeoutText u) = Except.ok d →
        Method.UnmarshalYAML pd m u = ({ (u.intoAlias m).1 with Timeout := d }, none) := by
    intro pd m u h1 h2 d hd
    have key := Method_UnmarshalYAML_eq pd m u h1 h2
    rw [specTimeoutText_eq, hd] at key
    exact key
  have hdef : ∀ {α : Type} (u : Unmarshal α),
      (u.intoTimeout { Timeout := "" }).1.Timeout = "" → specTimeoutText u = "1s" := by
    intro α u hs
    simp [specTimeoutText, hs]
  have h500 : ∀ {α : Type} (u : Unmarshal α),
      (u.intoTimeout { Timeout := "" }).1.Timeout = "500ms" → specTimeoutText u = "500ms" := by
    intro α u hs
    unfold specTimeoutText
    rw [hs]
    decide
  refine ⟨?_, ?_, ?_, ?_⟩
  · intro pd r u h1 h2
    refine ⟨⟨?_, ?_⟩, hR pd r u h1 h2⟩
    · intro hnone
      cases hp : pd (specTimeoutText u) with
      | error e =>
        have key := Resource_UnmarshalYAML_eq pd r u h1 h2
        rw [specTimeoutText_eq, hp] at key
        rw [key] at hnone
        exact absurd hnone (by simp)
      | ok d => exact ⟨d, rfl⟩
    · rintro ⟨d, hd⟩
      rw [hR pd r u h1 h2 d hd]
  · intro pd m u h1 h2
    refine ⟨⟨?_, ?_⟩, hM pd m u h1 h2⟩
    · intro hnone
      cases hp : pd (specTimeoutText u) with
      | error e =>
        have key := Method_UnmarshalYAML_eq pd m u h1 h2
        rw [specTimeoutText_eq, hp] at key
        rw [key] at hnone
        exact absurd hnone (by simp)
      | ok d => exact ⟨d, rfl⟩
    · rintro ⟨d, hd⟩
      rw [hM pd m u h1 h2 d hd]
  · intro frac r u h1 h2
    refine ⟨fun hs => hR _ r u h1 h2 _ ?_, fun hs => hR _ r u h1 h2 _ ?_⟩
    · rw [hdef u hs]
      exact (ParseDuration_default_and_500ms frac).1
    · rw [h500 u hs]
      exact (ParseDuration_default_and_500ms frac).2
  · intro frac m u h1 h2
    refine ⟨fun hs => hM _ m u h1 h2 _ ?_, fun hs => hM _ m u h1 h2 _ ?_⟩
    · rw [hdef u hs]
      exact (ParseDuration_default_and_500ms frac).1
    · rw [h500 u hs]
      exact (ParseDuration_default_and_500ms frac).2

/-- C4 on a resource document and a method document without timeout and with
`timeout: 500ms`: no call returns an error, the receiver is the decoded
document, and the timeouts are exactly 1 s and 500 ms. -/
theorem UnmarshalYAML_timeout_defaulting_witness :
    (Resource.UnmarshalYAML (ParseDuration exactFrac) zeroResource (resourceDoc "") =
      ({ zeroResource with Type_ := "Restful", Path := "/users", Description := "users",
                           Timeout := 1000000000 }, none)) ∧
    (Resource.UnmarshalYAML (ParseDuration exactFrac) zeroResource (resourceDoc "500ms") =
      ({ zeroResource with Type_ := "Restful", Path := "/users", Description := "users",
                           Timeout := 500000000 }, none)) ∧
    (Method.UnmarshalYAML (ParseDuration exactFrac) zeroMethod (methodDoc "") =
      ({ zeroMethod with ResourcePath := "/users", Enable := true, HTTPVerb := "GET",
                         Timeout := 1000000000 }, none)) ∧
    (Method.UnmarshalYAML (ParseDuration exactFrac) zeroMethod (methodDoc "500ms") =
      ({ zeroMethod with ResourcePath := "/users", Enable := true, HTTPVerb := "GET",
                         Timeout := 500000000 }, none)) ∧
    ((Resource.UnmarshalYAML (ParseDuration exactFrac) zeroResource
        (resourceDoc "1h30m")).2 = none ↔
      ∃ d, ParseDuration exactFrac (specTimeoutText (resourceDoc "1h30m")) = Except.ok d) :=
  have h := UnmarshalYAML_timeout_defaulting
  ⟨(h.2.2.1 exactFrac zeroResource (resourceDoc "") rfl rfl).1 rfl,
   (h.2.2.1 exactFrac zeroResource (resourceDoc "500ms") rfl rfl).2 rfl,
   (h.2.2.2 exactFrac zeroMethod (methodDoc "") rfl rfl).1 rfl,
   (h.2.2.2 exactFrac zeroMethod (methodDoc "500ms") rfl rfl).2 rfl,
   (h.1 (ParseDuration exactFrac) zeroResource (resourceDoc "1h30m") rfl rfl).1⟩

/-- C5, refuted. With the standard parser, the timeout text `"abc"` does not
parse; on a resource document and a method document carrying it, the hook
returns an error and the receiver, which held zero values before the call,
now holds the document's other fields. -/
theorem UnmarshalYAML_leaves_decoded_fields_on_error :
    (∃ e, ParseDuration exactFrac "abc" = Except.error e) ∧
    ((Resource.UnmarshalYAML (ParseDuration exactFrac) zeroResource
        (resourceDoc "abc")).2 ≠ none ∧
      zeroResource.Path = "" ∧
      (Resource.UnmarshalYAML (ParseDuration exactFrac) zeroResource
        (resourceDoc "abc")).1.Path = "/users" ∧
      (Resource.UnmarshalYAML (ParseDuration exactFrac) zeroResource
        (resourceDoc "abc")).1 ≠ zeroResource) ∧
    ((Method.UnmarshalYAML (ParseDuration exactFrac) zeroMethod (methodDoc "abc")).2 ≠ none ∧
      zeroMethod.Enable = false ∧
      (Method.UnmarshalYAML (ParseDuration exactFrac) zeroMethod
        (methodDoc "abc")).1.Enable = true ∧
      (Method.UnmarshalYAML (ParseDuration exactFrac) zeroMethod
        (methodDoc "abc")).1 ≠ zeroMethod) := by
  have hr : (Resource.UnmarshalYAML (ParseDuration exactFrac) zeroResource
      (resourceDoc "abc")).1.Path = "/users" := rfl
  have hm : (Method.UnmarshalYAML (ParseDuration exactFrac) zeroMethod
      (methodDoc "abc")).1.Enable = true := rfl
  refine ⟨⟨_, rfl⟩, ⟨?_, rfl, hr, ?_⟩, ⟨?_, rfl, hm, ?_⟩⟩
  · intro h
    exact Option.noConfusion (h.symm.trans rfl :
      none = some ("time: invalid duration abc" : GoError))
  · intro h
    have h2 : ("/users" : String) = "" := hr.symm.trans (congrArg Resource.Path h)
    exact absurd h2 (by decide)
  · intro h
    exact Option.noConfusion (h.symm.trans rfl :
      none = some ("time: invalid duration abc" : GoError))
  · intro h
    have h2 : true = false := hm.symm.trans (congrArg Method.Enable h)
    exact absurd h2 (by decide)

/-- C5, amended. For `Resource.UnmarshalYAML` and `Method.UnmarshalYAML`, when
the document's timeout text (after defaulting) does not parse, the call
returns an error and never assigns `Timeout`: the receiver is left as the
structural decode `unmarshal(alias)` left it, the document's other fields
written into it; when both structural decodes succeed the error returned is
the parser's. -/
theorem UnmarshalYAML_unparsable_timeout (pd : String → Except GoError Duration) :
    (∀ (r : Resource) (u : Unmarshal Resource) (e : GoError),
      pd (specTimeoutText u) = Except.error e →
      (Resource.UnmarshalYAML pd r u).2 ≠ none ∧
      (Resource.UnmarshalYAML pd r u).1 = (u.intoAlias r).1 ∧
      ((u.intoAlias r).2 = none → (u.intoTimeout { Timeout := "" }).2 = none →
        Resource.UnmarshalYAML pd r u = ((u.intoAlias r).1, some e))) ∧
    (∀ (m : Method) (u : Unmarshal Method) (e : GoError),
      pd (specTimeoutText u) = Except.error e →
      (Method.UnmarshalYAML pd m u).2 ≠ none ∧
      (Method.UnmarshalYAML pd m u).1 = (u.intoAlias m).1 ∧
      ((u.intoAlias m).2 = none → (u.intoTimeout { Timeout := "" }).2 = none →
        Method.UnmarshalYAML pd m u = ((u.intoAlias m).1, some e))) := by
  constructor
  · intro r u e h
    have herr := Resource_UnmarshalYAML_error_of_unparsable pd r u e h
    refine ⟨herr, Resource_UnmarshalYAML_target_on_error pd r u herr, ?_⟩
    intro h1 h2
    have key := Resource_UnmarshalYAML_eq pd r u h1 h2
    rw [specTimeoutText_eq, h] at key
    exact key
  · intro m u e h
    have herr := Method_UnmarshalYAML_error_of_unparsable pd m u e h
    refine ⟨herr, Method_UnmarshalYAML_target_on_error pd m u herr, ?_⟩
    intro h1 h2
    have key := Method_UnmarshalYAML_eq pd m u h1 h2
    rw [specTimeoutText_eq, h] at key
    exact key

/-- C5, amended, with the standard parser on the documents carrying
`timeout: abc`: an error is returned and the receiver is the decoded
document, its `Timeout` still zero. -/
theorem UnmarshalYAML_unparsable_timeout_witness :
    (Resource.UnmarshalYAML (ParseDuration exactFrac) zeroResource (resourceDoc "abc") =
      ({ zeroResource with Type_ := "Restful", Path := "/users", Description := "users" },
        some "time: invalid duration abc")) ∧
    (Method.UnmarshalYAML (ParseDuration exactFrac) zeroMethod (methodDoc "abc") =
      ({ zeroMethod with ResourcePath := "/users", Enable := true, HTTPVerb := "GET" },
        some "time: invalid duration abc")) :=
  have h := UnmarshalYAML_unparsable_timeout (ParseDuration exactFrac)
  ⟨(h.1 zeroResource (resourceDoc "abc") "time: invalid duration abc" rfl).2.2 rfl rfl,
   (h.2 zeroMethod (methodDoc "abc") "time: invalid duration abc" rfl).2.2 rfl rfl⟩

end Pixiu
